import Mathlib

/-!
Verification of the `forge_provider` client facade
(`crates/forge_provider/src/client.rs`).

The facade is shallowly embedded:

* `Model`, `ModelId`, `Provider`, `RetryConfig`, `Context`,
  `ChatCompletionMessage`, `HttpConfig` mirror the `forge_app::domain`
  value types as far as the facade observes them.
* The model cache (`HashMap<ModelId, Model>` behind a lock) is embedded as
  an association list `Cache` with replace-on-insert semantics, matching
  `HashMap::insert` / `HashMap::get`.
* The external backend (`ForgeProvider` / `Anthropic`) is I/O; its
  successive `list_models` responses are embedded as a script
  `List (Except Err (List Model))` carried in the operational state
  `ClientSt`, together with a counter of backend calls made.  Each
  operation of `Client` becomes a function from `ClientSt` to a
  result-state pair, translated line by line from `client.rs`.
* `chat`'s backend response (stream establishment plus the lazy stream of
  per-item results) is passed explicitly as an
  `Except Err (List (Except Err ChatCompletionMessage))`.
* Construction (`Client::new`) is embedded with the external builders
  (`reqwest::Client::builder().build()`, `ForgeProvider::builder()`,
  `Anthropic::builder()`) supplied as oracle functions, since those live
  outside the facade.
-/

namespace Forge

/-- `ModelId`: opaque, comparable, hashable identifier (the cache key). -/
abbrev ModelId := Nat

/-- `Model`: id plus backend-reported metadata (collapsed to one field;
the facade never inspects the metadata). -/
structure Model where
  id : ModelId
  data : Nat
deriving DecidableEq

/-- `RetryConfig`: immutable classification policy data, opaque to the
facade. -/
structure RetryConfig where
  policy : Nat
deriving DecidableEq

/-- Errors as the facade observes them: an opaque underlying failure
(`raw`), an `anyhow` context layer (`ctx`, from `.with_context`), and the
retry-classified wrapper produced by `into_retry`. -/
inductive Err where
  | raw (code : Nat)
  | ctx (msg : String) (cause : Err)
  | retryable (cause : Err) (cfg : RetryConfig)
deriving DecidableEq

/-- Modelled from the spec: `into_retry` lives in
`crates/forge_provider/src/retry.rs`, which is not part of the sources;
the spec describes it as a pure mapping `(error, retry_config)` to a typed
retryable error carrying the original cause.  No claim depends on more
than that. -/
def into_retry (e : Err) (cfg : RetryConfig) : Err :=
  Err.retryable e cfg

/-- `ChatCompletionMessage`: one unit of a streamed chat response (opaque
to the facade). -/
structure ChatCompletionMessage where
  content : String
deriving DecidableEq

/-- `Context`: caller-supplied conversation payload (opaque to the
facade). -/
structure Context where
  payload : Nat
deriving DecidableEq

/-- The model cache `HashMap<ModelId, Model>`, as an association list. -/
abbrev Cache := List (ModelId × Model)

/-- `HashMap::get`: the value stored under a key, if any. -/
def Cache.get : Cache → ModelId → Option Model
  | [], _ => none
  | (k, v) :: rest, id => if k = id then some v else Cache.get rest id

/-- `HashMap::insert`: replaces an existing binding for the key, otherwise
adds one. -/
def Cache.insert : Cache → ModelId → Model → Cache
  | [], k, v => [(k, v)]
  | (k', v') :: rest, k, v =>
      if k' = k then (k, v) :: rest else (k', v') :: Cache.insert rest k v

/-- The cache produced by a successful refresh over the fetched list:
clear, then insert every model keyed by its id. -/
def buildCache (models : List Model) : Cache :=
  models.foldl (fun c m => c.insert m.id m) []

/-- Operational state of a `Client`: the shared cache, the script of the
backend's remaining `list_models` responses, and how many `list_models`
calls have been issued so far (the test-double call counter of the spec's
testable properties). -/
structure ClientSt where
  cache : Cache
  backend : List (Except Err (List Model))
  calls : Nat

/-- One call to the selected backend's `list_models`: consumes the next
scripted response and bumps the call counter.  (An exhausted script
answers with an opaque error; claims always supply enough script.) -/
def list_models_call (st : ClientSt) : Except Err (List Model) × ClientSt :=
  match st.backend with
  | [] => (Except.error (Err.raw 0), { st with calls := st.calls + 1 })
  | r :: rest => (r, { st with backend := rest, calls := st.calls + 1 })

namespace Client

/-- `Client::retry`: `result.map_err(|e| into_retry(e, retry_config))`. -/
def retry {α : Type} (cfg : RetryConfig) (result : Except Err α) : Except Err α :=
  result.mapError (fun e => into_retry e cfg)

/-- `Client::refresh_models`: call the backend's `models()`, classify a
failure through `retry` (the `?` returns it with the cache untouched); on
success clear the cache and insert every fetched model keyed by its id,
then return the fetched list. -/
def refresh_models (cfg : RetryConfig) (st : ClientSt) :
    Except Err (List Model) × ClientSt :=
  match list_models_call st with
  | (r, st1) =>
    match retry cfg r with
    | Except.error e => (Except.error e, st1)
    | Except.ok models =>
        (Except.ok models,
         { st1 with cache := models.foldl (fun c m => c.insert m.id m) [] })

/-- `Client::models`: delegates to `refresh_models`. -/
def models (cfg : RetryConfig) (st : ClientSt) :
    Except Err (List Model) × ClientSt :=
  refresh_models cfg st

/-- `Client::model`: cache-first read; on a miss, refresh and search the
fetched list for the id. -/
def model (cfg : RetryConfig) (st : ClientSt) (id : ModelId) :
    Except Err (Option Model) × ClientSt :=
  match st.cache.get id with
  | some m => (Except.ok (some m), st)
  | none =>
    match refresh_models cfg st with
    | (Except.error e, st1) => (Except.error e, st1)
    | (Except.ok ms, st1) =>
        (Except.ok (ms.find? (fun m => m.id == id)), st1)

/-- `Client::chat`: establish the stream through `retry` (a setup failure
returns before any item); on success re-emit every pulled item through
`retry`.  `resp` is the backend's response to `chat(model, context)`. -/
def chat (cfg : RetryConfig) (_model : ModelId) (_context : Context)
    (resp : Except Err (List (Except Err ChatCompletionMessage))) :
    Except Err (List (Except Err ChatCompletionMessage)) :=
  match retry cfg resp with
  | Except.error e => Except.error e
  | Except.ok chat_stream =>
      Except.ok (chat_stream.map (fun item => retry cfg item))

end Client

/-- `Provider` (from `forge_app::domain`), as far as `Client::new` matches
on it: an OpenAI-family variant (url, optional key, optional extra
headers) and an Anthropic variant (url, key).  URLs are strings. -/
inductive Provider where
  | OpenAI (url : String) (key : Option String)
      (extra_headers : Option (List (String × String)))
  | Anthropic (url : String) (key : String)
deriving DecidableEq

/-- `HttpConfig`: the recognized transport options. -/
structure HttpConfig where
  connect_timeout : Nat
  read_timeout : Nat
  pool_idle_timeout : Nat
  pool_max_idle_per_host : Nat
  max_redirects : Nat
deriving DecidableEq

/-- The built `reqwest::Client` transport, opaque to the facade. -/
structure HttpClient where
  handle : Nat
deriving DecidableEq

/-- The OpenAI-compatible backend, opaque: `Client::new` only records the
builder inputs. -/
structure ForgeProvider where
  client : HttpClient
  provider : Provider
  version : String
deriving DecidableEq

/-- The Anthropic backend, opaque: `Client::new` only records the builder
inputs. -/
structure Anthropic where
  client : HttpClient
  api_key : String
  base_url : String
  anthropic_version : String
deriving DecidableEq

/-- `InnerClient`: the tagged union over the two backend variants. -/
inductive InnerClient where
  | OpenAICompat (provider : ForgeProvider)
  | Anthropic (provider : Anthropic)
deriving DecidableEq

/-- The `Client` value produced by `Client::new` (the `Arc`s collapse to
plain fields in the embedding). -/
structure Client where
  retry_config : RetryConfig
  inner : InnerClient
  models_cache : Cache
deriving DecidableEq

/-- The external builders `Client::new` invokes: the `reqwest` transport
builder and the two backend builders, each of which may fail.  They are
oracles: theorems quantify over them, witnesses instantiate them. -/
structure Builders where
  buildHttp : HttpConfig → Except Err HttpClient
  buildForge : ForgeProvider → Except Err ForgeProvider
  buildAnthropic : Anthropic → Except Err Anthropic

/-- `Client::new`: build the transport; select the backend variant by the
discriminant of `provider`, wrapping a builder failure in a context error
tagged with the provider's base URL; start with an empty cache. -/
def Client.new (b : Builders) (provider : Provider) (retry_config : RetryConfig)
    (version : String) (timeout_config : HttpConfig) : Except Err Client :=
  match b.buildHttp timeout_config with
  | Except.error e => Except.error e
  | Except.ok client =>
    match
      (match provider with
       | Provider.OpenAI url _ _ =>
         match b.buildForge ⟨client, provider, version⟩ with
         | Except.error e =>
             Except.error (Err.ctx ("Failed to initialize: " ++ url) e)
         | Except.ok p => Except.ok (InnerClient.OpenAICompat p)
       | Provider.Anthropic url key =>
         match b.buildAnthropic ⟨client, key, url, "2023-06-01"⟩ with
         | Except.error e =>
             Except.error
               (Err.ctx ("Failed to initialize Anthropic client with URL: " ++ url) e)
         | Except.ok a => Except.ok (InnerClient.Anthropic a)) with
    | Except.error e => Except.error e
    | Except.ok inner =>
        Except.ok { retry_config := retry_config, inner := inner, models_cache := [] }

/-! ## Cache lemmas -/

theorem Cache.get_insert (c : Cache) (k : ModelId) (v : Model) (id : ModelId) :
    (c.insert k v).get id = if id = k then some v else c.get id := by
  induction c with
  | nil =>
      by_cases h : id = k
      · subst h; simp [Cache.insert, Cache.get]
      · simp [Cache.insert, Cache.get, h, Ne.symm h]
  | cons kv rest ih =>
      obtain ⟨k', v'⟩ := kv
      by_cases hk : k' = k
      · subst hk
        by_cases h : id = k'
        · subst h; simp [Cache.insert, Cache.get]
        · simp [Cache.insert, Cache.get, h, Ne.symm h]
      · by_cases h : id = k
        · subst h
          simp [Cache.insert, Cache.get, hk, ih]
        · simp [Cache.insert, Cache.get, hk, ih, h]

theorem get_foldl_insert_isSome (S : List Model) (acc : Cache) (k : ModelId) :
    ((S.foldl (fun c m => c.insert m.id m) acc).get k).isSome
      ↔ k ∈ S.map Model.id ∨ (acc.get k).isSome := by
  induction S generalizing acc with
  | nil => simp
  | cons m S ih =>
      simp only [List.foldl_cons, ih, List.map_cons, List.mem_cons]
      rw [Cache.get_insert]
      by_cases h : k = m.id
      · simp [h]
      · simp [h, or_assoc]

theorem get_foldl_insert_of_not_mem (S : List Model) (acc : Cache) (k : ModelId)
    (h : k ∉ S.map Model.id) :
    (S.foldl (fun c m => c.insert m.id m) acc).get k = acc.get k := by
  induction S generalizing acc with
  | nil => rfl
  | cons m S ih =>
      simp only [List.map_cons, List.mem_cons, not_or] at h
      simp only [List.foldl_cons, ih _ h.2]
      rw [Cache.get_insert]
      simp [h.1]

theorem get_foldl_insert_of_nodup (S : List Model) (acc : Cache) (m : Model)
    (hnd : (S.map Model.id).Nodup) (hm : m ∈ S) :
    (S.foldl (fun c m => c.insert m.id m) acc).get m.id = some m := by
  induction S generalizing acc with
  | nil => cases hm
  | cons a S ih =>
      simp only [List.map_cons, List.nodup_cons] at hnd
      rcases List.mem_cons.mp hm with h | h
      · subst h
        rw [List.foldl_cons, get_foldl_insert_of_not_mem S _ _ hnd.1,
          Cache.get_insert]
        simp
      · rw [List.foldl_cons]
        exact ih _ hnd.2 h

/-- After a successful refresh over `S`, a key is present in the cache
exactly when it occurs among the ids of `S`. -/
theorem buildCache_isSome (S : List Model) (k : ModelId) :
    ((buildCache S).get k).isSome ↔ k ∈ S.map Model.id := by
  simpa [buildCache, Cache.get] using get_foldl_insert_isSome S [] k

/-- With distinct ids, every fetched model is cached under its id. -/
theorem buildCache_get_of_nodup (S : List Model) (m : Model)
    (hnd : (S.map Model.id).Nodup) (hm : m ∈ S) :
    (buildCache S).get m.id = some m :=
  get_foldl_insert_of_nodup S [] m hnd hm

/-! ## Facade lemmas -/

theorem retry_ok {α : Type} (cfg : RetryConfig) (v : α) :
    Client.retry cfg (Except.ok v) = Except.ok v := rfl

theorem retry_error {α : Type} (cfg : RetryConfig) (e : Err) :
    (Client.retry cfg (Except.error e) : Except Err α)
      = Except.error (into_retry e cfg) := rfl

/-- A refresh against a backend whose next response is `Ok(S)` returns `S`
and rebuilds the cache from `S` alone, consuming one scripted response. -/
theorem refresh_models_ok (cfg : RetryConfig) (st : ClientSt) (S : List Model)
    (rest : List (Except Err (List Model))) (h : st.backend = Except.ok S :: rest) :
    Client.refresh_models cfg st
      = (Except.ok S, ⟨buildCache S, rest, st.calls + 1⟩) := by
  obtain ⟨c, b, n⟩ := st
  cases h
  rfl

/-- A refresh against a backend whose next response is an error returns the
classified error, leaving the cache untouched. -/
theorem refresh_models_error (cfg : RetryConfig) (st : ClientSt) (e : Err)
    (rest : List (Except Err (List Model))) (h : st.backend = Except.error e :: rest) :
    Client.refresh_models cfg st
      = (Except.error (into_retry e cfg), ⟨st.cache, rest, st.calls + 1⟩) := by
  obtain ⟨c, b, n⟩ := st
  cases h
  rfl

/-! ## Claims -/

/-- C1: for every successful refresh in which the backend returns the list
`S`, the cache afterwards contains exactly the ids occurring in `S`, each
mapped to the `Model` returned for that id (prior contents wholly
replaced, never merged), and the fetched list `S` itself is returned to
the caller; `models()` is exactly this refresh. -/
theorem c1_refresh_replaces_cache (cfg : RetryConfig) (st : ClientSt)
    (S : List Model) (rest : List (Except Err (List Model)))
    (h : st.backend = Except.ok S :: rest) :
    (Client.refresh_models cfg st).1 = Except.ok S
    ∧ (Client.refresh_models cfg st).2.cache = buildCache S
    ∧ (∀ k, (((Client.refresh_models cfg st).2.cache).get k).isSome
          ↔ k ∈ S.map Model.id)
    ∧ ((S.map Model.id).Nodup →
        ∀ m ∈ S, ((Client.refresh_models cfg st).2.cache).get m.id = some m)
    ∧ Client.models cfg st = Client.refresh_models cfg st := by
  have hr := refresh_models_ok cfg st S rest h
  refine ⟨by rw [hr], by rw [hr], fun k => ?_, fun hnd m hm => ?_, rfl⟩
  · rw [hr]
    exact buildCache_isSome S k
  · rw [hr]
    exact buildCache_get_of_nodup S m hnd hm

theorem c1_refresh_replaces_cache_witness :
    (Client.refresh_models ⟨0⟩ ⟨[], [Except.ok [⟨1, 10⟩, ⟨2, 20⟩]], 0⟩).1
        = Except.ok [⟨1, 10⟩, ⟨2, 20⟩]
    ∧ ((Client.refresh_models ⟨0⟩ ⟨[], [Except.ok [⟨1, 10⟩, ⟨2, 20⟩]], 0⟩).2.cache).get 1
        = some ⟨1, 10⟩ := by
  have h := c1_refresh_replaces_cache ⟨0⟩ ⟨[], [Except.ok [⟨1, 10⟩, ⟨2, 20⟩]], 0⟩
      [⟨1, 10⟩, ⟨2, 20⟩] [] rfl
  exact ⟨h.1, h.2.2.2.1 (by decide) ⟨1, 10⟩ (by simp)⟩

/-- C2: for every cache state, a failed `list_models` makes
`refresh_models` return the classified error with the cache left exactly
as it was. -/
theorem c2_failed_refresh_leaves_cache (cfg : RetryConfig) (st : ClientSt)
    (e : Err) (rest : List (Except Err (List Model)))
    (h : st.backend = Except.error e :: rest) :
    (Client.refresh_models cfg st).1 = Except.error (into_retry e cfg)
    ∧ (Client.refresh_models cfg st).2.cache = st.cache := by
  rw [refresh_models_error cfg st e rest h]
  exact ⟨rfl, rfl⟩

theorem c2_failed_refresh_leaves_cache_witness :
    (Client.refresh_models ⟨0⟩ ⟨[(1, ⟨1, 10⟩)], [Except.error (Err.raw 7)], 0⟩).1
        = Except.error (into_retry (Err.raw 7) ⟨0⟩)
    ∧ (Client.refresh_models ⟨0⟩ ⟨[(1, ⟨1, 10⟩)], [Except.error (Err.raw 7)], 0⟩).2.cache
        = [(1, ⟨1, 10⟩)] :=
  c2_failed_refresh_leaves_cache ⟨0⟩ ⟨[(1, ⟨1, 10⟩)], [Except.error (Err.raw 7)], 0⟩
    (Err.raw 7) [] rfl

/-- C3: a `chat` whose stream establishment fails returns the classified
error before any item; on success, every pulled item is independently
re-classified: `Ok` items pass through unchanged, a failing item `i`
becomes the classified error at exactly position `i`, and the output has
one item per input item (earlier and later items are unaffected). -/
theorem c3_chat_per_item_classified (cfg : RetryConfig) (mid : ModelId) (ctx : Context) :
    (∀ (e : Err),
        Client.chat cfg mid ctx (Except.error e) = Except.error (into_retry e cfg))
    ∧ (∀ (items : List (Except Err ChatCompletionMessage)),
        Client.chat cfg mid ctx (Except.ok items)
          = Except.ok (items.map (fun item => Client.retry cfg item)))
    ∧ (∀ (items out : List (Except Err ChatCompletionMessage)),
        Client.chat cfg mid ctx (Except.ok items) = Except.ok out →
          out.length = items.length
          ∧ (∀ (i : Nat) (m : ChatCompletionMessage),
              items[i]? = some (Except.ok m) → out[i]? = some (Except.ok m))
          ∧ (∀ (i : Nat) (e : Err),
              items[i]? = some (Except.error e)
                → out[i]? = some (Except.error (into_retry e cfg)))) := by
  refine ⟨fun e => rfl, fun items => rfl, fun items out h => ?_⟩
  have hout : out = items.map (fun item => Client.retry cfg item) := by
    have := h.symm.trans (rfl :
      Client.chat cfg mid ctx (Except.ok items)
        = Except.ok (items.map (fun item => Client.retry cfg item)))
    exact (Except.ok.injEq _ _).mp this
  subst hout
  refine ⟨List.length_map _ _, fun i m hi => ?_, fun i e hi => ?_⟩
  · rw [List.getElem?_map, hi]
    rfl
  · rw [List.getElem?_map, hi]
    rfl

theorem c3_chat_per_item_classified_witness :
    [Except.ok (⟨"a"⟩ : ChatCompletionMessage),
     Except.error (Err.retryable (Err.raw 5) ⟨0⟩), Except.ok ⟨"c"⟩][1]?
      = some (Except.error (into_retry (Err.raw 5) ⟨0⟩)) := by
  have h := (c3_chat_per_item_classified ⟨0⟩ 1 ⟨0⟩).2.2
      [Except.ok ⟨"a"⟩, Except.error (Err.raw 5), Except.ok ⟨"c"⟩]
      [Except.ok ⟨"a"⟩, Except.error (Err.retryable (Err.raw 5) ⟨0⟩), Except.ok ⟨"c"⟩]
      rfl
  exact h.2.2 1 (Err.raw 5) rfl

/-- C5: for every id present in the cache, `model id` returns the cached
value immediately and the whole state — cache, backend script and call
counter — is unchanged (no backend call, no cache mutation). -/
theorem c5_cache_hit_no_io (cfg : RetryConfig) (st : ClientSt) (id : ModelId)
    (m : Model) (h : st.cache.get id = some m) :
    Client.model cfg st id = (Except.ok (some m), st) := by
  simp [Client.model, h]

theorem c5_cache_hit_no_io_witness :
    Client.model ⟨0⟩ ⟨[(1, ⟨1, 10⟩)], [Except.ok []], 0⟩ 1
      = (Except.ok (some ⟨1, 10⟩), ⟨[(1, ⟨1, 10⟩)], [Except.ok []], 0⟩) :=
  c5_cache_hit_no_io ⟨0⟩ ⟨[(1, ⟨1, 10⟩)], [Except.ok []], 0⟩ 1 ⟨1, 10⟩ rfl

/-- C6: `models()` is exactly the full refresh — it consumes one backend
response and bumps the call counter whatever the cache holds, and its
result never depends on the cache contents. -/
theorem c6_models_always_refreshes (cfg : RetryConfig) (c c1 : Cache)
    (b : List (Except Err (List Model))) (n : Nat) :
    Client.models cfg ⟨c, b, n⟩ = Client.refresh_models cfg ⟨c, b, n⟩
    ∧ (Client.models cfg ⟨c, b, n⟩).2.calls = n + 1
    ∧ (Client.models cfg ⟨c, b, n⟩).2.backend = b.tail
    ∧ (Client.models cfg ⟨c, b, n⟩).1 = (Client.models cfg ⟨c1, b, n⟩).1 := by
  cases b with
  | nil => exact ⟨rfl, rfl, rfl, rfl⟩
  | cons r rest =>
      cases r with
      | ok S => exact ⟨rfl, rfl, rfl, rfl⟩
      | error e => exact ⟨rfl, rfl, rfl, rfl⟩

/-- C8: two `models()` calls in sequence against a backend answering the
same list both times leave the cache with the same final contents after
each call. -/
theorem c8_refresh_idempotent (cfg : RetryConfig) (c : Cache) (n : Nat)
    (S : List Model) (rest : List (Except Err (List Model))) :
    ((Client.models cfg ⟨c, Except.ok S :: Except.ok S :: rest, n⟩).2).cache
      = ((Client.models cfg
            ((Client.models cfg ⟨c, Except.ok S :: Except.ok S :: rest, n⟩).2)).2).cache :=
  rfl

/-- C10: the retry wrapper is the identity on successes and transforms
only errors, at both injection points: the one-shot calls and the
per-item stream transform of `chat`. -/
theorem c10_retry_identity_on_ok (cfg : RetryConfig) :
    (∀ (v : List Model), Client.retry cfg (Except.ok v) = Except.ok v)
    ∧ (∀ (m : ChatCompletionMessage), Client.retry cfg (Except.ok m) = Except.ok m)
    ∧ (∀ (e : Err), (Client.retry cfg (Except.error e) : Except Err (List Model))
          = Except.error (into_retry e cfg))
    ∧ (∀ (mid : ModelId) (ctx : Context) (items : List (Except Err ChatCompletionMessage)),
        Client.chat cfg mid ctx (Except.ok items)
          = Except.ok (items.map (fun item => Client.retry cfg item))) :=
  ⟨fun _ => rfl, fun _ => rfl, fun _ => rfl, fun _ _ _ => rfl⟩

/-- C4: for every id absent from the cache, `model id` performs exactly
one full refresh, identical to the one `models()` performs (same resulting
state: one scripted response consumed, one call counted); the result is
the fetched list searched for the id, so an id still absent after the
refresh yields `Ok none` rather than an error, and an error is returned
only when the refresh itself fails. -/
theorem c4_cache_miss_refreshes_once (cfg : RetryConfig) (st : ClientSt)
    (id : ModelId) (h : st.cache.get id = none) :
    (Client.model cfg st id).2 = (Client.models cfg st).2
    ∧ (Client.model cfg st id).2.calls = st.calls + 1
    ∧ (Client.model cfg st id).2.backend = st.backend.tail
    ∧ (∀ S rest, st.backend = Except.ok S :: rest →
        (Client.model cfg st id).1 = Except.ok (S.find? (fun m => m.id == id)))
    ∧ (∀ S rest, st.backend = Except.ok S :: rest →
        ((Client.model cfg st id).2.cache).get id = none →
        (Client.model cfg st id).1 = Except.ok none)
    ∧ (∀ e rest, st.backend = Except.error e :: rest →
        (Client.model cfg st id).1 = Except.error (into_retry e cfg)) := by
  obtain ⟨c, b, n⟩ := st
  have hmiss : Cache.get c id = none := h
  have hstate : ∀ (b0 : List (Except Err (List Model))),
      (Client.model cfg ⟨c, b0, n⟩ id).2 = (Client.models cfg ⟨c, b0, n⟩).2 := by
    intro b0
    cases b0 with
    | nil => simp [Client.model, Client.models, hmiss, Client.refresh_models,
        list_models_call, Client.retry, Except.mapError]
    | cons r rest =>
        cases r with
        | ok S => simp [Client.model, Client.models, hmiss, Client.refresh_models,
            list_models_call, Client.retry, Except.mapError]
        | error e => simp [Client.model, Client.models, hmiss, Client.refresh_models,
            list_models_call, Client.retry, Except.mapError]
  refine ⟨hstate b, ?_, ?_, fun S rest hb => ?_, fun S rest hb habs => ?_,
    fun e rest hb => ?_⟩
  · rw [hstate b]
    cases b with
    | nil => rfl
    | cons r rest => cases r with
      | ok S => rfl
      | error e => rfl
  · rw [hstate b]
    cases b with
    | nil => rfl
    | cons r rest => cases r with
      | ok S => rfl
      | error e => rfl
  · cases hb
    simp [Client.model, hmiss, refresh_models_ok cfg ⟨c, Except.ok S :: rest, n⟩ S rest rfl]
  · cases hb
    have hre := refresh_models_ok cfg ⟨c, Except.ok S :: rest, n⟩ S rest rfl
    have hcache : (Client.model cfg ⟨c, Except.ok S :: rest, n⟩ id).2.cache
        = buildCache S := by
      simp [Client.model, hmiss, hre]
    rw [hcache] at habs
    have hnotmem : id ∉ S.map Model.id := by
      intro hmem
      have hs := (buildCache_isSome S id).mpr hmem
      rw [habs] at hs
      simp at hs
    have hfind : S.find? (fun m => m.id == id) = none := by
      rw [List.find?_eq_none]
      intro m hm heq
      exact hnotmem (List.mem_map.mpr ⟨m, hm, by simpa using heq⟩)
    simp [Client.model, hmiss, hre, hfind]
  · cases hb
    simp [Client.model, hmiss,
      refresh_models_error cfg ⟨c, Except.error e :: rest, n⟩ e rest rfl]

theorem c4_cache_miss_refreshes_once_witness :
    (Client.model ⟨0⟩ ⟨[], [Except.ok [⟨1, 10⟩]], 0⟩ 2).1 = Except.ok none
    ∧ (Client.model ⟨0⟩ ⟨[], [Except.ok [⟨1, 10⟩]], 0⟩ 2).2.calls = 1 := by
  have h := c4_cache_miss_refreshes_once ⟨0⟩ ⟨[], [Except.ok [⟨1, 10⟩]], 0⟩ 2 rfl
  exact ⟨h.2.2.2.2.1 [⟨1, 10⟩] [] rfl (by decide), h.2.1⟩

/-- C7: `new` selects the backend variant by the provider's discriminant —
OpenAI-family yields the OpenAI-compatible backend, Anthropic yields the
Anthropic backend (the selection is a field of the immutable `Client`, so
it is fixed for the client's lifetime) — and a backend initialization
failure makes `new` fail with a construction error wrapping that failure
tagged with the provider's base URL. -/
theorem c7_new_selects_backend (b : Builders) (cfg : RetryConfig) (v : String)
    (hc : HttpConfig) (client : HttpClient)
    (hhttp : b.buildHttp hc = Except.ok client) :
    (∀ url key eh p,
        b.buildForge ⟨client, Provider.OpenAI url key eh, v⟩ = Except.ok p →
        Client.new b (Provider.OpenAI url key eh) cfg v hc
          = Except.ok ⟨cfg, InnerClient.OpenAICompat p, []⟩)
    ∧ (∀ url key a,
        b.buildAnthropic ⟨client, key, url, "2023-06-01"⟩ = Except.ok a →
        Client.new b (Provider.Anthropic url key) cfg v hc
          = Except.ok ⟨cfg, InnerClient.Anthropic a, []⟩)
    ∧ (∀ url key eh e,
        b.buildForge ⟨client, Provider.OpenAI url key eh, v⟩ = Except.error e →
        Client.new b (Provider.OpenAI url key eh) cfg v hc
          = Except.error (Err.ctx ("Failed to initialize: " ++ url) e))
    ∧ (∀ url key e,
        b.buildAnthropic ⟨client, key, url, "2023-06-01"⟩ = Except.error e →
        Client.new b (Provider.Anthropic url key) cfg v hc
          = Except.error
              (Err.ctx ("Failed to initialize Anthropic client with URL: " ++ url) e)) := by
  refine ⟨fun url key eh p hf => ?_, fun url key a hf => ?_,
    fun url key eh e hf => ?_, fun url key e hf => ?_⟩ <;>
    simp [Client.new, hhttp, hf]

theorem c7_new_selects_backend_witness :
    Client.new ⟨fun _ => Except.ok ⟨0⟩, Except.ok, Except.ok⟩
        (Provider.OpenAI "https://api.openai.com/v1/" (some "test-key") none)
        ⟨0⟩ "dev" ⟨1, 1, 1, 1, 1⟩
      = Except.ok ⟨⟨0⟩, InnerClient.OpenAICompat
          ⟨⟨0⟩, Provider.OpenAI "https://api.openai.com/v1/" (some "test-key") none, "dev"⟩, []⟩ :=
  (c7_new_selects_backend ⟨fun _ => Except.ok ⟨0⟩, Except.ok, Except.ok⟩
      ⟨0⟩ "dev" ⟨1, 1, 1, 1, 1⟩ ⟨0⟩ rfl).1
    "https://api.openai.com/v1/" (some "test-key") none _ rfl

/-- C9: immediately after a successful `new`, the model cache is empty:
looking up any id in the cache without a refresh is a miss. -/
theorem c9_cache_starts_empty (b : Builders) (p : Provider) (cfg : RetryConfig)
    (v : String) (hc : HttpConfig) (cl : Client)
    (h : Client.new b p cfg v hc = Except.ok cl) :
    cl.models_cache = [] ∧ ∀ id, cl.models_cache.get id = none := by
  have hempty : cl.models_cache = [] := by
    unfold Client.new at h
    cases hb : b.buildHttp hc with
    | error e =>
        rw [hb] at h
        cases h
    | ok client =>
        rw [hb] at h
        simp only at h
        cases p with
        | OpenAI url key eh =>
            simp only at h
            cases hf : b.buildForge ⟨client, Provider.OpenAI url key eh, v⟩ with
            | error e =>
                rw [hf] at h
                cases h
            | ok pr =>
                rw [hf] at h
                cases h
                rfl
        | Anthropic url key =>
            simp only at h
            cases hf : b.buildAnthropic ⟨client, key, url, "2023-06-01"⟩ with
            | error e =>
                rw [hf] at h
                cases h
            | ok a =>
                rw [hf] at h
                cases h
                rfl
  refine ⟨hempty, fun id => ?_⟩
  rw [hempty]
  rfl

theorem c9_cache_starts_empty_witness :
    (⟨⟨0⟩, InnerClient.Anthropic ⟨⟨0⟩, "key", "https://api.anthropic.com/", "2023-06-01"⟩,
        []⟩ : Client).models_cache.get 5 = none :=
  (c9_cache_starts_empty ⟨fun _ => Except.ok ⟨0⟩, Except.ok, Except.ok⟩
      (Provider.Anthropic "https://api.anthropic.com/" "key") ⟨0⟩ "dev"
      ⟨1, 1, 1, 1, 1⟩
      ⟨⟨0⟩, InnerClient.Anthropic ⟨⟨0⟩, "key", "https://api.anthropic.com/", "2023-06-01"⟩, []⟩
      rfl).2 5

end Forge
